import Mathlib

-- Shallow embedding of the swan consent-relay service (Go), covering the
-- decode-as-json pipeline (handlerDecodeAsJSON.go) and the fetch path with
-- its storage-operation URL composer (handlerFetch / createStorageOperationURL).
-- Go strings are modelled as Lean String or List Char; byte slices as List Nat
-- (each element < 256); url.Values (a map from key to list of values) as a
-- function String → List String; outbound HTTP as an oracle function passed in
-- explicitly, with the calls that were issued collected in a list.

namespace Swan

-- ---------------------------------------------------------------------------
-- url.Values and URLs
-- ---------------------------------------------------------------------------

-- Model of Go url.Values: a map from parameter name to the list of its values.
def Values : Type := String → List String

-- Models url.Values with no entries.
def Values.empty : Values := fun _ => []

-- Models url.Values.Set: replaces all values of the key with the single value.
def Values.set (q : Values) (k v : String) : Values :=
  fun x => if x = k then [v] else q x

-- Models url.Values.Encode restricted to a finite set of keys: the encoder
-- walks the keys of the map and emits one key-value pair per stored value.
def Values.encodeKeys (ks : List String) (q : Values) : List (String × String) :=
  ks.flatMap fun k => (q k).map fun v => (k, v)

structure URL where
  scheme : String
  host : String
  path : String
  query : Values

-- ---------------------------------------------------------------------------
-- Error values and HTTP responses
-- ---------------------------------------------------------------------------

-- Error taxonomy as produced by the Go source: fmt.Errorf configuration
-- messages, transport-level errors from http.Get, and newResponseError for a
-- non-200 status from a downstream call.
inductive GoError where
  | configError (msg : String)
  | transport (msg : String)
  | responseError (status : Nat) (body : String)
deriving DecidableEq

-- Message text carried by each error, as built in the Go source.
def GoError.message : GoError → String
  | .configError m => m
  | .transport m => m
  | .responseError st body =>
      "API call returned " ++ toString st ++ " and " ++ body

structure HTTPResponse where
  status : Nat
  body : String
  headers : List (String × String)
deriving DecidableEq

structure Configuration where
  Debug : Bool
  Scheme : String
  AccessKey : String
  Network : String
  Timeout : Int

structure Services where
  accessNode : String
  config : Configuration

-- Outcome of an outbound http.Get, supplied as an oracle.
inductive GetOutcome where
  | transportError (msg : String)
  | response (status : Nat) (body : String)

-- Record of the outbound calls a handler issued.
inductive Call where
  | discovery (network : String)
  | httpGet (u : URL)

-- Host of an outbound http.Get call, if the call is one.
def Call.hostOf : Call → Option String
  | .discovery _ => none
  | .httpGet u => some u.host

-- ---------------------------------------------------------------------------
-- Error writers (returnAPIError, returnRequestError, returnServerError)
-- ---------------------------------------------------------------------------

-- Models returnAPIError: sets three headers and always writes the error text
-- into the body via http.Error, for every value of c.Debug.
def returnAPIError (c : Configuration) (errMsg : String) (code : Nat) :
    HTTPResponse :=
  { status := code
    body := errMsg
    headers := [("Access-Control-Allow-Origin", "*"),
                ("Cache-Control", "no-cache"),
                ("Content-Type", "text/plain; charset=utf-8")] }

-- Models returnRequestError: writes the error text only in debug mode, and an
-- empty body otherwise.
def returnRequestError (c : Configuration) (errMsg : String) (code : Nat) :
    HTTPResponse :=
  { status := code
    body := if c.Debug then errMsg else ""
    headers := [("Cache-Control", "no-cache"),
                ("Content-Type", "text/plain; charset=utf-8")] }

-- Models returnServerError: like returnRequestError with status 500 fixed.
def returnServerError (c : Configuration) (errMsg : String) : HTTPResponse :=
  { status := 500
    body := if c.Debug then errMsg else ""
    headers := [("Cache-Control", "no-cache")] }

-- ---------------------------------------------------------------------------
-- Whitespace normalizer (removeHTMLWhiteSpace)
-- ---------------------------------------------------------------------------

-- Models the loop body state of removeHTMLWhiteSpace: prev is the character
-- preceding the current one in the ORIGINAL input (none at index 0).  The Go
-- code tests the previous byte h[i-1]; byte 0x20 occurs in UTF-8 exactly as
-- the space rune, so comparing the previous rune with a space is equivalent.
def removeHTMLWhiteSpaceAux (prev : Option Char) : List Char → List Char
  | [] => []
  | r :: rest =>
    if r ≠ '\r' ∧ r ≠ '\n' ∧ r ≠ '\t' then
      if prev = none ∨ r ≠ ' ' ∨ prev ≠ some ' ' then
        r :: removeHTMLWhiteSpaceAux (some r) rest
      else
        removeHTMLWhiteSpaceAux (some r) rest
    else
      removeHTMLWhiteSpaceAux (some r) rest

-- Models removeHTMLWhiteSpace from the source.
def removeHTMLWhiteSpace (h : List Char) : List Char :=
  removeHTMLWhiteSpaceAux none h

-- Decision of whether a character is written out, given the character that
-- precedes it in the original input.
def keptB (prev : Option Char) (r : Char) : Bool :=
  decide (r ≠ '\r' ∧ r ≠ '\n' ∧ r ≠ '\t' ∧ (r = ' ' → prev ≠ some ' '))

-- Position-based characterization: keep exactly the characters that are not
-- CR, LF or TAB and are not a space directly preceded by a space in the
-- original input.
def removeHTMLWhiteSpaceSpec (h : List Char) : List Char :=
  ((h.zip ((none : Option Char) :: h.map some)).filter
    (fun p => keptB p.2 p.1)).map Prod.fst

theorem removeHTMLWhiteSpaceAux_cons (prev : Option Char) (r : Char)
    (rest : List Char) :
    removeHTMLWhiteSpaceAux prev (r :: rest) =
      if keptB prev r then r :: removeHTMLWhiteSpaceAux (some r) rest
      else removeHTMLWhiteSpaceAux (some r) rest := by
  by_cases h1 : r = '\r' <;> by_cases h2 : r = '\n' <;>
    by_cases h3 : r = '\t' <;> by_cases h4 : r = ' ' <;>
    by_cases h5 : prev = some ' ' <;>
    simp [removeHTMLWhiteSpaceAux, keptB, h1, h2, h3, h4, h5]

theorem removeHTMLWhiteSpaceAux_eq_spec (h : List Char) :
    ∀ prev, removeHTMLWhiteSpaceAux prev h =
      ((h.zip (prev :: h.map some)).filter (fun p => keptB p.2 p.1)).map
        Prod.fst := by
  induction h with
  | nil => intro prev; rfl
  | cons r rest ih =>
    intro prev
    rw [removeHTMLWhiteSpaceAux_cons]
    simp only [List.map_cons, List.zip_cons_cons, List.filter_cons]
    by_cases hk : keptB prev r <;> simp [hk, ih (some r)]

-- Inputs free of the control characters the normalizer deletes.
def ctrlFree (h : List Char) : Prop := ∀ c ∈ h, c ≠ '\r' ∧ c ≠ '\n' ∧ c ≠ '\t'

-- No two adjacent space characters.
def noTwoSpaces (h : List Char) : Prop :=
  List.Chain' (fun a b => a ≠ ' ' ∨ b ≠ ' ') h

instance ctrlFree.instDecidable (h : List Char) : Decidable (ctrlFree h) := by
  unfold ctrlFree; infer_instance

theorem removeHTMLWhiteSpaceAux_sublist (h : List Char) :
    ∀ prev, List.Sublist (removeHTMLWhiteSpaceAux prev h) h := by
  induction h with
  | nil => intro prev; exact List.Sublist.refl []
  | cons r rest ih =>
    intro prev
    rw [removeHTMLWhiteSpaceAux_cons]
    by_cases hk : keptB prev r
    · rw [if_pos hk]; exact List.Sublist.cons₂ r (ih (some r))
    · rw [if_neg hk]; exact List.Sublist.cons r (ih (some r))

theorem removeHTMLWhiteSpaceAux_noTwoSpaces (h : List Char) :
    ∀ prev, ctrlFree h →
      noTwoSpaces (removeHTMLWhiteSpaceAux prev h) ∧
        (prev = some ' ' →
          (removeHTMLWhiteSpaceAux prev h).head? ≠ some ' ') := by
  induction h with
  | nil =>
    intro prev _
    exact ⟨List.chain'_nil, fun _ => by simp [removeHTMLWhiteSpaceAux]⟩
  | cons r rest ih =>
    intro prev hcf
    have hr := hcf r (List.mem_cons_self r rest)
    have hcf2 : ctrlFree rest := fun c hc => hcf c (List.mem_cons_of_mem r hc)
    have ihr := ih (some r) hcf2
    rw [removeHTMLWhiteSpaceAux_cons]
    by_cases hk : keptB prev r
    · rw [if_pos hk]
      constructor
      · rw [noTwoSpaces, List.chain'_cons']
        refine ⟨?_, ihr.1⟩
        intro y hy
        rw [Option.mem_def] at hy
        by_cases hrs : r = ' '
        · right
          intro hy'
          exact ihr.2 (by rw [hrs]) (by rw [hy, hy'])
        · left; exact hrs
      · intro hprev
        simp only [List.head?_cons, ne_eq, Option.some.injEq]
        intro hrs
        simp only [keptB, decide_eq_true_eq] at hk
        exact hk.2.2.2 hrs hprev
    · rw [if_neg hk]
      have hdrop : r = ' ' ∧ prev = some ' ' := by
        simp [keptB, hr.1, hr.2.1, hr.2.2] at hk
        exact hk
      exact ⟨ihr.1, fun _ => ihr.2 (by rw [hdrop.1])⟩

theorem removeHTMLWhiteSpaceAux_fixed (h : List Char) :
    ∀ prev, ctrlFree h → noTwoSpaces h →
      (prev = some ' ' → h.head? ≠ some ' ') →
      removeHTMLWhiteSpaceAux prev h = h := by
  induction h with
  | nil => intro prev _ _ _; rfl
  | cons r rest ih =>
    intro prev hcf hns hhd
    have hr := hcf r (List.mem_cons_self r rest)
    have hcf2 : ctrlFree rest := fun c hc => hcf c (List.mem_cons_of_mem r hc)
    rw [noTwoSpaces, List.chain'_cons'] at hns
    rw [removeHTMLWhiteSpaceAux_cons]
    have hk : keptB prev r = true := by
      simp only [keptB, decide_eq_true_eq]
      refine ⟨hr.1, hr.2.1, hr.2.2, ?_⟩
      intro hrs hprev
      exact hhd hprev (by rw [List.head?_cons, hrs])
    rw [if_pos hk]
    congr 1
    apply ih (some r) hcf2 hns.2
    intro hrs hrest
    have hy := hns.1 ' ' (by rw [Option.mem_def]; exact hrest)
    have hr' : r = ' ' := by injection hrs
    rcases hy with h1 | h1
    · exact h1 hr'
    · exact h1 rfl

/-- Claim C8: the whitespace normalizer is NOT idempotent as claimed.
Counterexample: on the input "a \n b", one application yields "a  b" (the
linefeed is removed, and both spaces survive because in the original input
neither is directly preceded by a space), while a second application collapses
the two now-adjacent spaces to one. -/
theorem removeHTMLWhiteSpace_not_idempotent :
    removeHTMLWhiteSpace (removeHTMLWhiteSpace ['a', ' ', '\n', ' ', 'b']) ≠
      removeHTMLWhiteSpace ['a', ' ', '\n', ' ', 'b'] := by decide

/-- Claim C8 (amended): the whitespace normalizer is idempotent on every input
that contains no carriage return, line feed or tab; on inputs containing those
characters idempotence can fail, because removing a control character can make
two surviving spaces adjacent. -/
theorem removeHTMLWhiteSpace_idempotent_of_ctrlFree (h : List Char)
    (hcf : ctrlFree h) :
    removeHTMLWhiteSpace (removeHTMLWhiteSpace h) = removeHTMLWhiteSpace h := by
  have hout := removeHTMLWhiteSpaceAux_noTwoSpaces h none hcf
  have hcf2 : ctrlFree (removeHTMLWhiteSpace h) := fun c hc =>
    hcf c ((removeHTMLWhiteSpaceAux_sublist h none).subset hc)
  exact removeHTMLWhiteSpaceAux_fixed _ none hcf2 hout.1
    (fun hx => Option.noConfusion hx)

/-- Witness for claim C8 (amended) at the concrete control-free input
"a  b". -/
theorem removeHTMLWhiteSpace_idempotent_witness :
    removeHTMLWhiteSpace (removeHTMLWhiteSpace ['a', ' ', ' ', 'b']) =
      removeHTMLWhiteSpace ['a', ' ', ' ', 'b'] :=
  removeHTMLWhiteSpace_idempotent_of_ctrlFree ['a', ' ', ' ', 'b'] (by decide)

/-- Claim C9: the concrete example of the claim fails on the code.  On the
input "a   b\n\tc" the normalizer yields "a bc", not the claimed "a b c": the
linefeed and tab between b and c are removed without leaving a space. -/
theorem removeHTMLWhiteSpace_example_ne_claimed :
    removeHTMLWhiteSpace ['a', ' ', ' ', ' ', 'b', '\n', '\t', 'c'] =
        ['a', ' ', 'b', 'c'] ∧
      removeHTMLWhiteSpace ['a', ' ', ' ', ' ', 'b', '\n', '\t', 'c'] ≠
        ['a', ' ', 'b', ' ', 'c'] := by decide

/-- Claim C9 (amended): the normalizer removes every carriage return, line
feed and tab, removes each space that is directly preceded by a space in the
ORIGINAL input, and keeps every other character unchanged in order (the
positional characterization removeHTMLWhiteSpaceSpec); on the concrete input
"a   b\n\tc" it yields "a bc". -/
theorem removeHTMLWhiteSpace_characterization :
    (∀ h : List Char, removeHTMLWhiteSpace h = removeHTMLWhiteSpaceSpec h) ∧
      removeHTMLWhiteSpace ['a', ' ', ' ', ' ', 'b', '\n', '\t', 'c'] =
        ['a', ' ', 'b', 'c'] := by
  constructor
  · intro h
    exact removeHTMLWhiteSpaceAux_eq_spec h none
  · decide

-- ---------------------------------------------------------------------------
-- createStorageOperationURL (fetch path storage URL composer)
-- ---------------------------------------------------------------------------

-- Message built by fmt.Errorf when no access node can be resolved.
def accessNodeMessage (network : String) : String :=
  "An access node has not been created for the \x27" ++ network ++
    "\x27 network. Use http[s]://[domain]/swift/register to start the network."

-- Result of createStorageOperationURL: the returned value or error, the value
-- of the accessNode cache field after the call, and the outbound calls made.
structure CSOUResult where
  result : Except GoError String
  accessNode : String
  calls : List Call

-- URL built for the create-operation request: injection function applied to
-- the publisher parameters first, then table set to the fixed value.
def createURL (scheme node : String) (q : Values) (fn : Values → Values) :
    URL :=
  { scheme := scheme
    host := node
    path := "/swift/api/v1/create"
    query := Values.set (fn q) "table" "swan" }

-- Tail of createStorageOperationURL after access-node resolution: builds the
-- URL, issues the GET and unpacks the body.
def csouIssue (scheme node : String) (get : URL → GetOutcome) (q : Values)
    (fn : Values → Values) (calls0 : List Call) : CSOUResult :=
  let u := createURL scheme node q fn
  match get u with
  | .transportError m =>
      { result := .error (.transport m)
        accessNode := node
        calls := calls0 ++ [.httpGet u] }
  | .response st body =>
      if st = 200 then
        { result := .ok body
          accessNode := node
          calls := calls0 ++ [.httpGet u] }
      else
        { result := .error (.responseError st body)
          accessNode := node
          calls := calls0 ++ [.httpGet u] }

-- Models createStorageOperationURL.  disc is the outcome of
-- swift.GetAccessNode (returned node string and error); get is the outbound
-- http.Get oracle.  With an empty cache the source returns the configuration
-- error only when the discovery error is non-nil AND the returned node is
-- empty; in every other case it stores the returned node and issues the
-- create-operation request.
def createStorageOperationURL (s : Services) (disc : String × Option String)
    (get : URL → GetOutcome) (q : Values) (fn : Values → Values) :
    CSOUResult :=
  if s.accessNode = "" then
    if disc.2.isSome ∧ disc.1 = "" then
      { result := .error (.configError (accessNodeMessage s.config.Network))
        accessNode := s.accessNode
        calls := [.discovery s.config.Network] }
    else
      csouIssue s.config.Scheme disc.1 get q fn [.discovery s.config.Network]
  else
    csouIssue s.config.Scheme s.accessNode get q fn []

theorem csouIssue_calls (scheme node : String) (get : URL → GetOutcome)
    (q : Values) (fn : Values → Values) (calls0 : List Call) :
    (csouIssue scheme node get q fn calls0).calls =
      calls0 ++ [.httpGet (createURL scheme node q fn)] := by
  cases hg : get (createURL scheme node q fn) with
  | transportError m => simp [csouIssue, hg]
  | response st body =>
    by_cases h : st = 200 <;> simp [csouIssue, hg, h]

theorem csouIssue_no_configError (scheme node : String)
    (get : URL → GetOutcome) (q : Values) (fn : Values → Values)
    (calls0 : List Call) (m : String) :
    (csouIssue scheme node get q fn calls0).result ≠
      .error (.configError m) := by
  cases hg : get (createURL scheme node q fn) with
  | transportError m2 => simp [csouIssue, hg]
  | response st body =>
    by_cases h : st = 200 <;> simp [csouIssue, hg, h]

theorem encodeKeys_filter_absent (q : Values) (ks : List String)
    (hnot : "table" ∉ ks) :
    (Values.encodeKeys ks q).filter (fun p => p.1 = "table") = [] := by
  induction ks with
  | nil => rfl
  | cons k rest ih =>
    have hk : k ≠ "table" := fun h => hnot (by rw [h]; exact List.mem_cons_self _ _)
    have hrest : "table" ∉ rest := fun h => hnot (List.mem_cons_of_mem k h)
    simp only [Values.encodeKeys, List.flatMap_cons, List.filter_append]
    rw [show (rest.flatMap fun k => (q k).map fun v => (k, v)) =
          Values.encodeKeys rest q from rfl, ih hrest]
    simp [List.filter_eq_nil_iff, hk]

theorem encodeKeys_filter_table (q : Values) (ks : List String)
    (hnd : ks.Nodup) (hmem : "table" ∈ ks) (hval : q "table" = ["swan"]) :
    (Values.encodeKeys ks q).filter (fun p => p.1 = "table") =
      [("table", "swan")] := by
  induction ks with
  | nil => cases hmem
  | cons k rest ih =>
    simp only [Values.encodeKeys, List.flatMap_cons, List.filter_append]
    rw [show (rest.flatMap fun k => (q k).map fun v => (k, v)) =
          Values.encodeKeys rest q from rfl]
    by_cases hk : k = "table"
    · subst hk
      have hrest : "table" ∉ rest := (List.nodup_cons.mp hnd).1
      rw [encodeKeys_filter_absent q rest hrest, hval]
      simp
    · have hmem2 : "table" ∈ rest := by
        cases hmem with
        | head => exact absurd rfl hk
        | tail _ h => exact h
      rw [ih (List.nodup_cons.mp hnd).2 hmem2]
      simp [List.filter_eq_nil_iff, hk]

/-- Claim C2: for every publisher-supplied parameter set q (including one that
already holds a different table value), every injection function fn and every
run of createStorageOperationURL, the create-operation request URL carries the
query built by applying fn first and then overriding table, its table
parameter holds exactly the single value "swan", and encoding the query over
any duplicate-free key enumeration containing "table" emits exactly one table
pair, valued "swan". -/
theorem createStorageOperationURL_table_swan (s : Services)
    (disc : String × Option String) (get : URL → GetOutcome) (q : Values)
    (fn : Values → Values) (ks : List String) (u : URL)
    (hnd : ks.Nodup) (hmem : "table" ∈ ks)
    (hu : Call.httpGet u ∈ (createStorageOperationURL s disc get q fn).calls) :
    u.query = Values.set (fn q) "table" "swan" ∧
      u.query "table" = ["swan"] ∧
      (Values.encodeKeys ks u.query).filter (fun p => p.1 = "table") =
        [("table", "swan")] := by
  have hq : u.query = Values.set (fn q) "table" "swan" := by
    unfold createStorageOperationURL at hu
    by_cases h1 : s.accessNode = ""
    · rw [if_pos h1] at hu
      by_cases h2 : disc.2.isSome ∧ disc.1 = ""
      · rw [if_pos h2] at hu
        simp at hu
      · rw [if_neg h2, csouIssue_calls] at hu
        simp [createURL] at hu
        rw [hu]
    · rw [if_neg h1, csouIssue_calls] at hu
      simp [createURL] at hu
      rw [hu]
  have hval : u.query "table" = ["swan"] := by
    rw [hq]; simp [Values.set]
  exact ⟨hq, hval, encodeKeys_filter_table u.query ks hnd hmem hval⟩

/-- Witness for claim C2: a concrete run whose publisher parameters already
contain table=foo; the issued request still carries table=swan exactly once. -/
theorem createStorageOperationURL_table_swan_witness :
    (Values.encodeKeys ["returnUrl", "table"]
        (createURL "https" "node1"
          (Values.set Values.empty "table" "foo") id).query).filter
      (fun p => p.1 = "table") = [("table", "swan")] := by
  have h := createStorageOperationURL_table_swan
    { accessNode := "node1"
      config := { Debug := false, Scheme := "https", AccessKey := "k",
                  Network := "swan", Timeout := 60 } }
    ("", none) (fun _ => .response 200 "next-url")
    (Values.set Values.empty "table" "foo") id ["returnUrl", "table"]
    (createURL "https" "node1" (Values.set Values.empty "table" "foo") id)
    (by decide) (by decide)
    (by rw [createStorageOperationURL]
        simp only [if_neg (by decide : ¬("node1" = ""))]
        rw [csouIssue_calls]
        exact List.mem_append_right _ (List.mem_singleton.mpr rfl))
  exact h.2.2

theorem csouIssue_accessNode (scheme node : String) (get : URL → GetOutcome)
    (q : Values) (fn : Values → Values) (calls0 : List Call) :
    (csouIssue scheme node get q fn calls0).accessNode = node := by
  cases hg : get (createURL scheme node q fn) with
  | transportError m => simp [csouIssue, hg]
  | response st body =>
    by_cases h : st = 200 <;> simp [csouIssue, hg, h]

/-- Claim C4: the code does NOT fail with the configuration error when the
cache is empty and discovery returns an empty node with no error.  The guard
requires the error to be non-nil AND the node empty, so with the pair
(empty node, nil error) the source caches the empty node and proceeds: it
issues the create-operation request against an empty host and returns its
body.  Evaluation of the model at that failing input. -/
theorem createStorageOperationURL_empty_discovery_proceeds :
    let s : Services :=
      { accessNode := ""
        config := { Debug := false, Scheme := "https", AccessKey := "k",
                    Network := "swan-demo", Timeout := 60 } }
    let r := createStorageOperationURL s ("", none)
      (fun _ => .response 200 "next-url") Values.empty id
    r.result = Except.ok "next-url" ∧
      r.calls.map Call.hostOf = [none, some ""] ∧
      r.result ≠
        Except.error (.configError (accessNodeMessage "swan-demo")) := by
  refine ⟨rfl, rfl, ?_⟩
  intro h
  exact Except.noConfusion h

/-- Claim C10: with an empty cache, createStorageOperationURL surfaces the
configuration error exactly when discovery returned a non-nil error AND an
empty node string; when discovery returns a non-empty node together with a
non-nil error, the error is discarded, the node is cached, and the
create-operation request is issued. -/
theorem discovery_error_discarded (s : Services)
    (disc : String × Option String) (get : URL → GetOutcome) (q : Values)
    (fn : Values → Values) (h1 : s.accessNode = "") :
    ((disc.2.isSome ∧ disc.1 = "") ↔
        (createStorageOperationURL s disc get q fn).result =
          .error (.configError (accessNodeMessage s.config.Network))) ∧
      (disc.2.isSome → disc.1 ≠ "" →
        (createStorageOperationURL s disc get q fn).accessNode = disc.1 ∧
          Call.httpGet (createURL s.config.Scheme disc.1 q fn) ∈
            (createStorageOperationURL s disc get q fn).calls ∧
          ∀ m, (createStorageOperationURL s disc get q fn).result ≠
            .error (.configError m)) := by
  constructor
  · constructor
    · intro h2
      unfold createStorageOperationURL
      rw [if_pos h1, if_pos h2]
    · intro hres
      by_contra h2
      unfold createStorageOperationURL at hres
      rw [if_pos h1, if_neg h2] at hres
      exact csouIssue_no_configError _ _ _ _ _ _ _ hres
  · intro hsome hne
    have h2 : ¬(disc.2.isSome ∧ disc.1 = "") := fun hc => hne hc.2
    unfold createStorageOperationURL
    rw [if_pos h1, if_neg h2]
    refine ⟨csouIssue_accessNode _ _ _ _ _ _, ?_, ?_⟩
    · rw [csouIssue_calls]
      exact List.mem_append_right _ (List.mem_singleton.mpr rfl)
    · intro m
      exact csouIssue_no_configError _ _ _ _ _ _ m

/-- Witness for claim C10: discovery returns node2 together with an error;
the error is discarded, node2 is cached, and no configuration error is
surfaced. -/
theorem discovery_error_discarded_witness :
    (createStorageOperationURL
        { accessNode := ""
          config := { Debug := false, Scheme := "https", AccessKey := "k",
                      Network := "swan-demo", Timeout := 60 } }
        ("node2", some "discovery failed") (fun _ => .response 200 "next-url")
        Values.empty id).accessNode = "node2" ∧
      (createStorageOperationURL
        { accessNode := ""
          config := { Debug := false, Scheme := "https", AccessKey := "k",
                      Network := "swan-demo", Timeout := 60 } }
        ("node2", some "discovery failed") (fun _ => .response 200 "next-url")
        Values.empty id).result ≠
        .error (.configError (accessNodeMessage "swan-demo")) := by
  have h := discovery_error_discarded
    { accessNode := ""
      config := { Debug := false, Scheme := "https", AccessKey := "k",
                  Network := "swan-demo", Timeout := 60 } }
    ("node2", some "discovery failed") (fun _ => .response 200 "next-url")
    Values.empty id rfl
  exact ⟨(h.2 rfl (by decide)).1,
    (h.2 rfl (by decide)).2.2 (accessNodeMessage "swan-demo")⟩

/-- Claim C3: the production-mode body suppression does NOT hold on the API
error path.  returnAPIError writes the full error text into the body for
every debug setting; with debug off the body is the full message, not
empty. -/
theorem returnAPIError_leaks_in_production :
    (returnAPIError
        { Debug := false, Scheme := "https", AccessKey := "k",
          Network := "swan", Timeout := 60 }
        "API call to internal-host failed" 500).body =
      "API call to internal-host failed" ∧
      (returnAPIError
        { Debug := false, Scheme := "https", AccessKey := "k",
          Network := "swan", Timeout := 60 }
        "API call to internal-host failed" 500).body ≠ "" := by
  exact ⟨rfl, by decide⟩

/-- Claim C3 (amended): errors written through returnRequestError and
returnServerError carry the full text only in debug mode and an empty body in
production mode; errors written through returnAPIError always carry the full
error text regardless of debug mode; all carry the mapped status, and API
errors set Access-Control-Allow-Origin star and Cache-Control no-cache. -/
theorem errorWriters_body_policy (c : Configuration) (msg : String)
    (code : Nat) :
    (returnRequestError c msg code).body = (if c.Debug then msg else "") ∧
      (returnServerError c msg).body = (if c.Debug then msg else "") ∧
      (returnRequestError c msg code).status = code ∧
      (returnServerError c msg).status = 500 ∧
      (returnAPIError c msg code).body = msg ∧
      (returnAPIError c msg code).status = code ∧
      ("Access-Control-Allow-Origin", "*") ∈
        (returnAPIError c msg code).headers ∧
      ("Cache-Control", "no-cache") ∈ (returnAPIError c msg code).headers := by
  refine ⟨rfl, rfl, rfl, rfl, rfl, rfl, ?_, ?_⟩ <;> simp [returnAPIError]

-- ---------------------------------------------------------------------------
-- SHA-1 (crypto/sha1, the hash used by createSID)
-- ---------------------------------------------------------------------------

-- Reduction to a 32-bit word.
def w32 (n : Nat) : Nat := n % 4294967296

-- Left rotation of a 32-bit word by n bits.
def rotl32 (n x : Nat) : Nat := ((x <<< n) ||| (x >>> (32 - n))) % 4294967296

-- Round function of SHA-1.
def sha1F (t b c d : Nat) : Nat :=
  if t < 20 then (b &&& c) ||| ((b ^^^ 4294967295) &&& d)
  else if t < 40 then b ^^^ c ^^^ d
  else if t < 60 then (b &&& c) ||| (b &&& d) ||| (c &&& d)
  else b ^^^ c ^^^ d

-- Round constants of SHA-1.
def sha1K (t : Nat) : Nat :=
  if t < 20 then 0x5A827999
  else if t < 40 then 0x6ED9EBA1
  else if t < 60 then 0x8F1BBCDC
  else 0xCA62C1D6

-- Big-endian 32-bit word from four bytes.
def bytesToWord (a b c d : Nat) : Nat :=
  a * 16777216 + b * 65536 + c * 256 + d

-- Big-endian bytes of a 32-bit word.
def wordBytes (x : Nat) : List Nat :=
  [(x >>> 24) % 256, (x >>> 16) % 256, (x >>> 8) % 256, x % 256]

-- Groups a byte list into big-endian 32-bit words.
def toWords : List Nat → List Nat
  | a :: b :: c :: d :: rest => bytesToWord a b c d :: toWords rest
  | _ => []

-- Extends the 16 block words by n further schedule words.
def extendWords : Nat → List Nat → List Nat
  | 0, w => w
  | n + 1, w =>
    let k := w.length
    extendWords n (w ++ [rotl32 1 (w.getD (k - 3) 0 ^^^ w.getD (k - 8) 0 ^^^
      w.getD (k - 14) 0 ^^^ w.getD (k - 16) 0)])

-- State of the five SHA-1 chaining words.
def SHA1State : Type := Nat × Nat × Nat × Nat × Nat

-- One compression round: tw carries the round index and schedule word.
def sha1Round (st : SHA1State) (tw : Nat × Nat) : SHA1State :=
  let a := st.1
  let b := st.2.1
  let c := st.2.2.1
  let d := st.2.2.2.1
  let e := st.2.2.2.2
  let tmp := w32 (rotl32 5 a + sha1F tw.1 b c d + e + sha1K tw.1 + tw.2)
  (tmp, a, rotl32 30 b, c, d)

-- Compression of one 64-byte block into the chaining state.
def processBlock (h : SHA1State) (block : List Nat) : SHA1State :=
  let ws := extendWords 64 (toWords block)
  let f := ws.enum.foldl sha1Round h
  (w32 (h.1 + f.1), w32 (h.2.1 + f.2.1), w32 (h.2.2.1 + f.2.2.1),
    w32 (h.2.2.2.1 + f.2.2.2.1), w32 (h.2.2.2.2 + f.2.2.2.2))

-- Processes the padded message 64 bytes at a time; fuel is at least the
-- message length, so it never runs out before the message does.
def processBlocksF : Nat → SHA1State → List Nat → SHA1State
  | 0, h, _ => h
  | fuel + 1, h, msg =>
    if msg.isEmpty then h
    else processBlocksF fuel (processBlock h (msg.take 64)) (msg.drop 64)

-- Big-endian 64-bit length field of the padding.
def lenBytes (n : Nat) : List Nat := wordBytes (n >>> 32) ++ wordBytes n

-- Appends the 0x80 marker, zero padding to 56 mod 64, and the bit length.
def sha1Pad (msg : List Nat) : List Nat :=
  msg ++ 128 :: List.replicate ((119 - msg.length % 64) % 64) 0 ++
    lenBytes (8 * msg.length)

-- Initial chaining state of SHA-1.
def sha1Init : SHA1State :=
  (1732584193, 4023233417, 2562383102, 271733878, 3285377520)

-- SHA-1 digest of a byte list: 20 bytes.
def sha1 (msg : List Nat) : List Nat :=
  let st := processBlocksF (sha1Pad msg).length sha1Init (sha1Pad msg)
  wordBytes st.1 ++ wordBytes st.2.1 ++ wordBytes st.2.2.1 ++
    wordBytes st.2.2.2.1 ++ wordBytes st.2.2.2.2

-- UTF-8 bytes of one character, as Go produces for []byte(s).
def utf8Char (c : Char) : List Nat :=
  let n := c.toNat
  if n < 128 then [n]
  else if n < 2048 then [192 + n / 64, 128 + n % 64]
  else if n < 65536 then
    [224 + n / 4096, 128 + (n / 64) % 64, 128 + n % 64]
  else
    [240 + n / 262144, 128 + (n / 4096) % 64, 128 + (n / 64) % 64,
      128 + n % 64]

-- UTF-8 bytes of a string, as Go produces for []byte(s).
def utf8Bytes (s : String) : List Nat := s.data.flatMap utf8Char

-- Models createSID: the SHA-1 digest of the UTF-8 bytes of the email string.
def createSID (s : String) : List Nat := sha1 (utf8Bytes s)

theorem wordBytes_length (x : Nat) : (wordBytes x).length = 4 := rfl

theorem sha1_length (msg : List Nat) : (sha1 msg).length = 20 := by
  simp [sha1, wordBytes_length]

theorem createSID_length (s : String) : (createSID s).length = 20 :=
  sha1_length (utf8Bytes s)

set_option maxRecDepth 100000 in
theorem sha1_abc : sha1 (utf8Bytes "abc") =
    [0xa9, 0x99, 0x3e, 0x36, 0x47, 0x06, 0x81, 0x6a, 0xba, 0x3e,
     0x25, 0x71, 0x78, 0x50, 0xc2, 0x6c, 0x9c, 0xd0, 0xd8, 0x9d] := by
  decide

-- ---------------------------------------------------------------------------
-- Decode pipeline (handlerDecodeAsJSON)
-- ---------------------------------------------------------------------------

-- Model of a swift Result: key, value and expiry.  The source mutates the
-- entries of results.Values in place; the loops are modelled as maps over the
-- list.  Timestamps are seconds as integers.
structure Pair where
  key : String
  value : String
  expires : Int
deriving DecidableEq

-- Model of an owid Creator: the composite of CreateOWID, Sign and AsBase64
-- applied to the payload bytes, supplied as an oracle (the owid package is an
-- external collaborator).
structure Creator where
  sign : List Nat → Except String String

-- Models encodeAsOWID: looks up the Creator for the request host, fails with
-- the registration hint when none is registered, otherwise signs the payload.
def encodeAsOWID (getCreator : String → Except String (Option Creator))
    (host : String) (v : List Nat) : Except String String :=
  match getCreator host with
  | .error e => .error e
  | .ok none =>
      .error ("No creator for \x27" ++ host ++ "\x27. Use http[s]://" ++
        host ++ "/owid/register to setup domain.")
  | .ok (some c) => c.sign v

-- Payload bytes handed to the signer for one Result, as in the loop of
-- handlerDecodeAsJSON: the email value is replaced by its SHA-1 hash.
def signPayload (p : Pair) : List Nat :=
  if p.key = "email" then createSID p.value else utf8Bytes p.value

-- Models one iteration of the OWID loop of handlerDecodeAsJSON: the email key
-- is renamed to sid and the value replaced by the signed hash; every other
-- value is signed as its own bytes.
def transformPair (enc : List Nat → Except String String) (p : Pair) :
    Except String Pair :=
  if p.key = "email" then
    match enc (createSID p.value) with
    | .error e => .error e
    | .ok v => .ok { key := "sid", value := v, expires := p.expires }
  else
    match enc (utf8Bytes p.value) with
    | .error e => .error e
    | .ok v => .ok { key := p.key, value := v, expires := p.expires }

-- Models the OWID loop over results.Values, aborting at the first error.
def transformValues (enc : List Nat → Except String String) :
    List Pair → Except String (List Pair)
  | [] => .ok []
  | p :: rest =>
    match transformPair enc p with
    | .error e => .error e
    | .ok q =>
      match transformValues enc rest with
      | .error e => .error e
      | .ok qs => .ok (q :: qs)

-- Models the expiry loop: every entry gets Expires = now + timeout, where now
-- is the UTC clock reading (the clock is modelled as frozen for the request)
-- and timeout is s.config.Timeout in seconds.
def stampExpiry (now timeout : Int) (ps : List Pair) : List Pair :=
  ps.map fun p => { p with expires := now + timeout }

-- URL built by decrypt for the access-node decrypt endpoint.
def decryptURL (s : Services) (d : String) : URL :=
  { scheme := s.config.Scheme
    host := s.accessNode
    path := "/swift/api/v1/decrypt"
    query := Values.set (Values.set Values.empty "data" d) "accessKey"
      s.config.AccessKey }

-- Models decrypt: issues the GET against the decrypt endpoint and unpacks the
-- body, recording the outbound call.
def decrypt (s : Services) (get : URL → GetOutcome) (d : String) :
    Except GoError String × List Call :=
  let u := decryptURL s d
  match get u with
  | .transportError m => (.error (.transport m), [.httpGet u])
  | .response st body =>
    if st = 200 then (.ok body, [.httpGet u])
    else (.error (.responseError st body), [.httpGet u])

-- Inbound request data for the decode path.
structure DecodeRequest where
  accessAllowed : Bool
  parseErr : Option String
  dataParam : String
  host : String

-- External collaborators of the decode path.
structure DecodeDeps where
  get : URL → GetOutcome
  decodeResults : String → Except String (List Pair)
  getCreator : String → Except String (Option Creator)
  now : Int

-- Outcome of the decode handler: the response written, the JSON output when
-- the pipeline succeeded, and the outbound calls issued.
structure DecodeResult where
  resp : HTTPResponse
  output : Option (List Pair)
  calls : List Call

-- Response written on the success path: the JSON encoding of the pairs is
-- modelled by the output field of DecodeResult.
def jsonResponse : HTTPResponse :=
  { status := 200, body := "", headers := [] }

-- Models handlerDecodeAsJSON end to end.
def handlerDecodeAsJSON (s : Services) (deps : DecodeDeps)
    (req : DecodeRequest) : DecodeResult :=
  if req.accessAllowed = false then
    { resp := returnAPIError s.config "Not authorized" 401
      output := none
      calls := [] }
  else
    match req.parseErr with
    | some e =>
      { resp := returnAPIError s.config e 500, output := none, calls := [] }
    | none =>
      match decrypt s deps.get req.dataParam with
      | (.error e, dcalls) =>
        { resp := returnAPIError s.config e.message 422
          output := none
          calls := dcalls }
      | (.ok inBytes, dcalls) =>
        match deps.decodeResults inBytes with
        | .error e =>
          { resp := returnAPIError s.config e 422
            output := none
            calls := dcalls }
        | .ok values =>
          match transformValues (encodeAsOWID deps.getCreator req.host)
              values with
          | .error e =>
            { resp := returnAPIError s.config e 500
              output := none
              calls := dcalls }
          | .ok tv =>
            { resp := jsonResponse
              output := some (stampExpiry deps.now s.config.Timeout tv)
              calls := dcalls }

-- ---------------------------------------------------------------------------
-- Fetch path (handlerFetch)
-- ---------------------------------------------------------------------------

-- Modelled from the spec: validateCommon is the common-parameter validator,
-- code of this repository outside this slice.  Per the spec it validates the
-- publisher parameters and, on failure, writes an error response and returns
-- a signal telling the caller to abort further processing.  Its outcome is
-- supplied as an oracle: ok, or failure carrying the response it writes.
inductive ValidateOutcome where
  | ok
  | fail (resp : HTTPResponse)

-- Responses the validator writes before the handler continues.
def ValidateOutcome.writes : ValidateOutcome → List HTTPResponse
  | .ok => []
  | .fail r => [r]

-- Injection function passed by handlerFetch to createStorageOperationURL:
-- sets the composite-keyed cbid, email and allow parameters, with t the
-- formatted date three months ahead and uuidStr the fresh identifier.
def fetchInjector (t uuidStr : String) (q : Values) : Values :=
  Values.set (Values.set (Values.set q ("cbid<" ++ t) uuidStr)
    ("email<" ++ t) "") ("allow<" ++ t) ""

-- Inbound request data for the fetch path.
structure FetchRequest where
  accessAllowed : Bool
  parseErr : Option String
  parseQueryErr : Option String
  form : Values

-- Outcome of the fetch handler: the ordered responses written and the
-- outbound calls issued.
structure FetchResult where
  writes : List HTTPResponse
  calls : List Call

-- Plain-text URL response written on the success path.
def urlResponse (u : String) : HTTPResponse :=
  { status := 200
    body := u
    headers := [("Content-Type", "text/plain; charset=utf-8"),
                ("Cache-Control", "no-cache"),
                ("Content-Length", toString (utf8Bytes u).length)] }

-- Models handlerFetch end to end.  The source calls validateCommon but
-- discards its returned signal, so after a validation failure the handler
-- still resolves the access node and issues the create-operation request.
def handlerFetch (s : Services) (disc : String × Option String)
    (get : URL → GetOutcome) (vres : ValidateOutcome) (t uuidStr : String)
    (req : FetchRequest) : FetchResult :=
  if req.accessAllowed = false then
    { writes := [returnAPIError s.config "Not authorized" 401], calls := [] }
  else
    match req.parseErr with
    | some e =>
      { writes := [returnAPIError s.config e 500], calls := [] }
    | none =>
      match req.parseQueryErr with
      | some e =>
        { writes := [returnAPIError s.config e 500], calls := [] }
      | none =>
        let c := createStorageOperationURL s disc get req.form
          (fetchInjector t uuidStr)
        match c.result with
        | .error e =>
          { writes := vres.writes ++ [returnAPIError s.config e.message 500]
            calls := c.calls }
        | .ok u =>
          { writes := vres.writes ++ [urlResponse u], calls := c.calls }

theorem createSID_ne_plaintext (s : String)
    (hlen : (utf8Bytes s).length ≠ 20) : createSID s ≠ utf8Bytes s := by
  intro he
  exact hlen (by rw [← he]; exact createSID_length s)

theorem transformValues_ok_spec (enc : List Nat → Except String String) :
    ∀ ps qs, transformValues enc ps = .ok qs →
      qs.length = ps.length ∧
        ∀ p q : Pair, (p, q) ∈ ps.zip qs → p.key = "email" →
          q.key = "sid" ∧ enc (createSID p.value) = .ok q.value := by
  intro ps
  induction ps with
  | nil =>
    intro qs h
    simp only [transformValues, Except.ok.injEq] at h
    subst h
    exact ⟨rfl, by intro p q hm; simp at hm⟩
  | cons p rest ih =>
    intro qs h
    rw [transformValues] at h
    cases hp : transformPair enc p with
    | error e => rw [hp] at h; simp at h
    | ok q =>
      rw [hp] at h
      cases hr : transformValues enc rest with
      | error e => rw [hr] at h; simp at h
      | ok qs2 =>
        rw [hr] at h
        simp only [Except.ok.injEq] at h
        subst h
        obtain ⟨ihlen, ihmem⟩ := ih qs2 hr
        refine ⟨by simp [ihlen], ?_⟩
        intro a b hm hkey
        simp only [List.zip_cons_cons, List.mem_cons, Prod.mk.injEq] at hm
        rcases hm with ⟨ha, hb⟩ | hm
        · subst ha
          subst hb
          rw [transformPair, if_pos hkey] at hp
          cases henc : enc (createSID a.value) with
          | error e => rw [henc] at hp; simp at hp
          | ok v =>
            rw [henc] at hp
            simp only [Except.ok.injEq] at hp
            subst hp
            exact ⟨rfl, rfl⟩
        · exact ihmem a b hm hkey

/-- Claim C1: whenever the OWID loop succeeds, every decoded Result keyed
email comes out keyed sid, the payload handed to the signer is the SHA-1 hash
of the original email string, the hash has the fixed length 20 (so it is
never the plaintext bytes unless those happen to be 20 bytes long), and in
particular the hash of "a@b.com" is 20 bytes and differs from the plaintext
bytes of "a@b.com". -/
theorem email_renamed_to_sid (enc : List Nat → Except String String)
    (ps qs : List Pair) (h : transformValues enc ps = .ok qs) :
    qs.length = ps.length ∧
      (∀ p q : Pair, (p, q) ∈ ps.zip qs → p.key = "email" →
        q.key = "sid" ∧ enc (createSID p.value) = .ok q.value ∧
          (createSID p.value).length = 20 ∧
          ((utf8Bytes p.value).length ≠ 20 →
            createSID p.value ≠ utf8Bytes p.value)) ∧
      (createSID "a@b.com").length = 20 ∧
      createSID "a@b.com" ≠ utf8Bytes "a@b.com" := by
  have main := transformValues_ok_spec enc ps qs h
  refine ⟨main.1, ?_, createSID_length "a@b.com",
    createSID_ne_plaintext "a@b.com" (by decide)⟩
  intro p q hm hkey
  obtain ⟨hk, hv⟩ := main.2 p q hm hkey
  exact ⟨hk, hv, createSID_length p.value, createSID_ne_plaintext p.value⟩

/-- Witness for claim C1: a concrete run of the OWID loop over a single
email-keyed Result; the output key is sid and the signer received the 20-byte
hash. -/
theorem email_renamed_to_sid_witness :
    transformValues (fun _ => .ok "tok")
        [{ key := "email", value := "a@b.com", expires := 5 }] =
      .ok [{ key := "sid", value := "tok", expires := 5 }] ∧
      ({ key := "sid", value := "tok", expires := 5 } : Pair).key = "sid" ∧
      (createSID "a@b.com").length = 20 := by
  have h := email_renamed_to_sid (fun _ => .ok "tok")
    [{ key := "email", value := "a@b.com", expires := 5 }]
    [{ key := "sid", value := "tok", expires := 5 }] rfl
  have h2 := h.2.1 { key := "email", value := "a@b.com", expires := 5 }
    { key := "sid", value := "tok", expires := 5 }
    (List.mem_singleton.mpr rfl) rfl
  exact ⟨rfl, h2.1, h2.2.2.1⟩

theorem handlerDecodeAsJSON_output_stamped (s : Services) (deps : DecodeDeps)
    (req : DecodeRequest) (out : List Pair)
    (hout : (handlerDecodeAsJSON s deps req).output = some out) :
    ∃ tv, out = stampExpiry deps.now s.config.Timeout tv := by
  unfold handlerDecodeAsJSON at hout
  split at hout
  · simp at hout
  · split at hout
    · simp at hout
    · split at hout
      · simp at hout
      · split at hout
        · simp at hout
        · split at hout
          · simp at hout
          · simp only [Option.some.injEq] at hout
            exact ⟨_, hout.symm⟩

/-- Claim C5: the expiry loop overwrites every Expires with now + timeout
(for every prior value), and on every authorized decode request that reaches
the response, every output Expires equals now + timeout and hence lies within
the closed interval from now to now + timeout, the clock being read once per
request in this model. -/
theorem expiry_stamped (s : Services) (deps : DecodeDeps)
    (req : DecodeRequest) (out : List Pair) (hT : 0 ≤ s.config.Timeout)
    (hout : (handlerDecodeAsJSON s deps req).output = some out) :
    (∀ (now t : Int) (ps : List Pair) (p : Pair),
        p ∈ stampExpiry now t ps → p.expires = now + t) ∧
      ∀ p ∈ out, p.expires = deps.now + s.config.Timeout ∧
        deps.now ≤ p.expires ∧
        p.expires ≤ deps.now + s.config.Timeout := by
  have hstamp : ∀ (now t : Int) (ps : List Pair) (p : Pair),
      p ∈ stampExpiry now t ps → p.expires = now + t := by
    intro now t ps p hp
    simp only [stampExpiry, List.mem_map] at hp
    obtain ⟨q, _, rfl⟩ := hp
    rfl
  refine ⟨hstamp, ?_⟩
  obtain ⟨tv, rfl⟩ := handlerDecodeAsJSON_output_stamped s deps req out hout
  intro p hp
  have he := hstamp deps.now s.config.Timeout tv p hp
  exact ⟨he, by rw [he]; exact le_add_of_nonneg_right hT, le_of_eq he⟩

/-- Witness for claim C5: a concrete authorized decode request with one email
Result, timeout 60 and clock 1000; the single output Result expires at
1060. -/
theorem expiry_stamped_witness :
    (handlerDecodeAsJSON
        { accessNode := "node1"
          config := { Debug := false, Scheme := "https", AccessKey := "k",
                      Network := "swan", Timeout := 60 } }
        { get := fun _ => .response 200 "blob"
          decodeResults := fun _ =>
            .ok [{ key := "email", value := "a@b.com", expires := 5 }]
          getCreator := fun _ => .ok (some { sign := fun _ => .ok "tok" })
          now := 1000 }
        { accessAllowed := true, parseErr := none, dataParam := "d",
          host := "pub.example" }).output =
      some [{ key := "sid", value := "tok", expires := 1060 }] ∧
      ({ key := "sid", value := "tok", expires := 1060 } : Pair).expires =
        1000 + 60 ∧
      (1000 : Int) ≤
        ({ key := "sid", value := "tok", expires := 1060 } : Pair).expires ∧
      ({ key := "sid", value := "tok", expires := 1060 } : Pair).expires ≤
        1000 + 60 := by
  have h := expiry_stamped
    { accessNode := "node1"
      config := { Debug := false, Scheme := "https", AccessKey := "k",
                  Network := "swan", Timeout := 60 } }
    { get := fun _ => .response 200 "blob"
      decodeResults := fun _ =>
        .ok [{ key := "email", value := "a@b.com", expires := 5 }]
      getCreator := fun _ => .ok (some { sign := fun _ => .ok "tok" })
      now := 1000 }
    { accessAllowed := true, parseErr := none, dataParam := "d",
      host := "pub.example" }
    [{ key := "sid", value := "tok", expires := 1060 }] (by decide) rfl
  exact ⟨rfl, h.2 { key := "sid", value := "tok", expires := 1060 }
    (List.mem_singleton.mpr rfl)⟩

/-- Claim C6: on both the decode path and the fetch path, a request the
AccessGate denies produces the 401 Not authorized response, no outbound call
(decrypt, discovery or create-operation), no pipeline output and no other
write. -/
theorem access_denied_no_calls (s : Services) (deps : DecodeDeps)
    (req : DecodeRequest) (disc : String × Option String)
    (get : URL → GetOutcome) (vres : ValidateOutcome) (t uuidStr : String)
    (freq : FetchRequest) (h1 : req.accessAllowed = false)
    (h2 : freq.accessAllowed = false) :
    (handlerDecodeAsJSON s deps req).resp.status = 401 ∧
      (handlerDecodeAsJSON s deps req).resp =
        returnAPIError s.config "Not authorized" 401 ∧
      (handlerDecodeAsJSON s deps req).calls = [] ∧
      (handlerDecodeAsJSON s deps req).output = none ∧
      (handlerFetch s disc get vres t uuidStr freq).writes =
        [returnAPIError s.config "Not authorized" 401] ∧
      (handlerFetch s disc get vres t uuidStr freq).calls = [] := by
  unfold handlerDecodeAsJSON handlerFetch
  rw [if_pos h1, if_pos h2]
  exact ⟨rfl, rfl, rfl, rfl, rfl, rfl⟩

/-- Witness for claim C6: concrete denied requests on both paths. -/
theorem access_denied_no_calls_witness :
    (handlerDecodeAsJSON
        { accessNode := "node1"
          config := { Debug := false, Scheme := "https", AccessKey := "k",
                      Network := "swan", Timeout := 60 } }
        { get := fun _ => .response 200 "blob"
          decodeResults := fun _ => .ok []
          getCreator := fun _ => .ok none
          now := 1000 }
        { accessAllowed := false, parseErr := none, dataParam := "d",
          host := "pub.example" }).calls = [] ∧
      (handlerFetch
        { accessNode := "node1"
          config := { Debug := false, Scheme := "https", AccessKey := "k",
                      Network := "swan", Timeout := 60 } }
        ("", none) (fun _ => .response 200 "next-url") .ok "2021-01-01" "u"
        { accessAllowed := false, parseErr := none, parseQueryErr := none,
          form := Values.empty }).calls = [] := by
  have h := access_denied_no_calls
    { accessNode := "node1"
      config := { Debug := false, Scheme := "https", AccessKey := "k",
                  Network := "swan", Timeout := 60 } }
    { get := fun _ => .response 200 "blob"
      decodeResults := fun _ => .ok []
      getCreator := fun _ => .ok none
      now := 1000 }
    { accessAllowed := false, parseErr := none, dataParam := "d",
      host := "pub.example" }
    ("", none) (fun _ => .response 200 "next-url") .ok "2021-01-01" "u"
    { accessAllowed := false, parseErr := none, parseQueryErr := none,
      form := Values.empty }
    rfl rfl
  exact ⟨h.2.2.1, h.2.2.2.2.2⟩

/-- Claim C7: the fetch handler does NOT abort when the validator rejects the
request.  The source calls validateCommon and discards its abort signal, so
on a concrete authorized request whose common parameters fail validation the
handler still issues the create-operation request (one outbound call to the
cached node) and writes the URL response after the validator error: two
writes with statuses 400 then 200.  Evaluation of the model at that failing
input. -/
theorem handlerFetch_ignores_validator :
    (handlerFetch
        { accessNode := "node1"
          config := { Debug := false, Scheme := "https", AccessKey := "k",
                      Network := "swan", Timeout := 60 } }
        ("", none) (fun _ => .response 200 "next-url")
        (.fail { status := 400, body := "missing parameter", headers := [] })
        "2021-01-01" "u"
        { accessAllowed := true, parseErr := none, parseQueryErr := none,
          form := Values.empty }).writes.map (fun w => w.status) =
      [400, 200] ∧
      (handlerFetch
        { accessNode := "node1"
          config := { Debug := false, Scheme := "https", AccessKey := "k",
                      Network := "swan", Timeout := 60 } }
        ("", none) (fun _ => .response 200 "next-url")
        (.fail { status := 400, body := "missing parameter", headers := [] })
        "2021-01-01" "u"
        { accessAllowed := true, parseErr := none, parseQueryErr := none,
          form := Values.empty }).writes.map (fun w => w.body) =
      ["missing parameter", "next-url"] ∧
      (handlerFetch
        { accessNode := "node1"
          config := { Debug := false, Scheme := "https", AccessKey := "k",
                      Network := "swan", Timeout := 60 } }
        ("", none) (fun _ => .response 200 "next-url")
        (.fail { status := 400, body := "missing parameter", headers := [] })
        "2021-01-01" "u"
        { accessAllowed := true, parseErr := none, parseQueryErr := none,
          form := Values.empty }).calls.map Call.hostOf = [some "node1"] := by
  exact ⟨rfl, rfl, rfl⟩

end Swan
